import Mathlib

/-!
Shallow embedding of the babylon_features collection-processing pipeline:
the document mapper (`build_langchain_document`, `build_document_content`,
`build_document_metadata` from
`src/features_pipeline/rag/documents/document_builder.py`), the batch buffer
(`RagCollection` from `src/features_pipeline/rag/documents/document_manager.py`),
the collection processor (`CollectionProcessor.process` from
`src/features_pipeline/processor.py`), the unit-of-work scan session
(`src/datalake/uow.py`) and the scheduler loop (`Daemon.run` from
`src/daemon.py`).

Python dictionaries are embedded as ordered association lists with unique
keys (`RawRecord`); Python runtime values as the inductive `PyValue`
(floats idealized as rationals); raised exceptions as explicit error values.
-/

set_option maxRecDepth 100000

namespace Babylon

/-- A Python runtime value as it occurs in data-lake records and document
metadata.  `obj` stands for any other object (e.g. a BSON ObjectId), carrying
the string that `str()` would produce for it. -/
inductive PyValue where
  | str (s : String)
  | int (n : Int)
  | float (q : Rat)
  | bool (b : Bool)
  | none
  | list (xs : List PyValue)
  | dict (xs : List (String × PyValue))
  | obj (r : String)

/-- A raw data-lake record: a Python dict embedded as an ordered association
list (keys unique, insertion order preserved, as for Python dicts). -/
abbrev RawRecord := List (String × PyValue)

/-- Document metadata, also a Python dict. -/
abbrev Metadata := List (String × PyValue)

/-- Python `d.get(k)` without default: `some v` when the key is present. -/
def lookupV (source : RawRecord) (k : String) : Option PyValue :=
  source.lookup k

/-- Python `d.get(k)` (default `None`). -/
def getN (source : RawRecord) (k : String) : PyValue :=
  (lookupV source k).getD PyValue.none

/-- Python `isinstance(v, (str, int, float, bool, type(None)))`. -/
def isSimpleType : PyValue → Bool
  | .str _ => true
  | .int _ => true
  | .float _ => true
  | .bool _ => true
  | .none => true
  | _ => false

/-- Python `isinstance(v, (list, dict))`. -/
def isComplexType : PyValue → Bool
  | .list _ => true
  | .dict _ => true
  | _ => false

/-- Python `v is None`. -/
def isNone : PyValue → Bool
  | .none => true
  | _ => false

/-- Render a magnitude in cents as a fixed two-decimal string. -/
def centsToString (neg : Bool) (cents : Nat) : String :=
  let whole := cents / 100
  let frac := cents % 100
  (if neg then "-" else "") ++ toString whole ++ "."
    ++ (if frac < 10 then "0" else "") ++ toString frac

/-- Python `f"(q):.2f"` on a float, idealized over the rationals (binary
floating-point rounding is replaced by exact decimal rounding of the
rational magnitude; no verified claim depends on the rendered digits). -/
def formatTwoDecimals (q : Rat) : String :=
  centsToString (q.num < 0) ((q.num.natAbs * 100 + q.den / 2) / q.den)

/-- Python `str(v)`.  The renderings of floats, lists and dicts are
abbreviated (no verified claim inspects those strings); the scalar cases
match CPython (`str(None) = "None"`, `str(True) = "True"`, ...). -/
def pyStr : PyValue → String
  | .str s => s
  | .int n => toString n
  | .float q => formatTwoDecimals q
  | .bool b => if b then "True" else "False"
  | .none => "None"
  | .list _ => "[...]"
  | .dict _ => "dict"
  | .obj r => r

/-- Python `str(source.get(k, "N/A"))` as used inside the content f-string. -/
def pyStrOrNA (source : RawRecord) (k : String) : String :=
  match lookupV source k with
  | some v => pyStr v
  | Option.none => "N/A"

/-- The spec's `MappingError`: in the code, the content f-string raises
(`TypeError`/`ValueError` from the `:.2f` format spec) exactly when the
`Amount` value is not numeric. -/
inductive MappingError where
  | unformattableAmount
deriving DecidableEq

/-- Python `f"(Amount):.2f"`: succeeds on float, int and bool (bool is an
int subclass in Python), fails on every other type. -/
def formatAmountValue : PyValue → Option String
  | .float q => some (formatTwoDecimals q)
  | .int n => some (centsToString (n < 0) (n.natAbs * 100))
  | .bool b => some (if b then "1.00" else "0.00")
  | _ => Option.none

/-- `build_document_content` (document_builder.py): renders the fixed
textual template over the source record; the `Amount` field defaults to
`0.0` when absent and must be numeric, the other fields default to the
literal `"N/A"`. -/
def build_document_content (source : RawRecord) (collection : String) :
    Except MappingError String :=
  let amountValue := (lookupV source "Amount").getD (PyValue.float 0)
  match formatAmountValue amountValue with
  | Option.none => .error .unformattableAmount
  | some amt =>
      .ok ("On " ++ pyStrOrNA source "PostingDate"
        ++ ", a transaction occurred with details: Description: "
        ++ pyStrOrNA source "Description"
        ++ ". Amount: $" ++ amt
        ++ ". Type: " ++ pyStrOrNA source "Type" ++ ".")

/-- One step of the `for k, v in source.items()` merge loop of
`build_document_metadata`: keys already present in the metadata dict are
left alone, list/dict values are skipped with a warning, other non-scalar
values are converted with `str`, scalars (including `None`) are kept. -/
def mergeStep (acc : Metadata) (kv : String × PyValue) : Metadata :=
  if (acc.lookup kv.1).isSome then acc
  else if isComplexType kv.2 then acc
  else if isSimpleType kv.2 then acc ++ [kv]
  else acc ++ [(kv.1, PyValue.str (pyStr kv.2))]

/-- Embedding of the Python `str | None` union of the `source_id`
parameter into `PyValue`. -/
def sidValue (source_id : Option String) : PyValue :=
  match source_id with
  | some s => PyValue.str s
  | Option.none => PyValue.none

/-- The explicit metadata dict literal that `build_document_metadata`
starts from. -/
def explicitMetadata (collection : String) (source_id : Option String)
    (source : RawRecord) : Metadata :=
  [("source_collection", PyValue.str collection),
   ("source_document_id", sidValue source_id),
   ("transaction_date", getN source "PostingDate"),
   ("amount", getN source "Amount"),
   ("type", getN source "Type")]

/-- `build_document_metadata` (document_builder.py): explicit fields, then
the merge loop over all source fields, then the final
`(k: v for k, v in metadata.items() if v is not None)` comprehension. -/
def build_document_metadata (source : RawRecord) (collection : String)
    (source_id : Option String) : Metadata :=
  (source.foldl mergeStep (explicitMetadata collection source_id source)).filter
    (fun kv => !(isNone kv.2))

/-- Modelled from the spec: `uuid.uuid4().hex` (features_pipeline/utils.py
`create_random_uuid_hex`) draws from the process-local random source, which
is external to the repository.  It is embedded as a function of an explicit
entropy state, keeping the two properties the spec relies on: every
generated identifier is a non-empty hex string, and identifiers generated
at distinct states of the same process are distinct. -/
def create_random_uuid_hex (g : Nat) : String × Nat :=
  (String.mk (List.replicate (g + 1) 'f'), g + 1)

/-- A LangChain `Document` as built by the mapper. -/
structure Document where
  page_content : String
  metadata : Metadata
  id : String

/-- `build_langchain_document` (document_builder.py).  Faithful to the
statement order of the Python source:
`source.pop("_id", None)` mutates the caller's record (the returned
`RawRecord` is the record as the caller sees it after the call);
`langchain_id` is `str(source_id)` when that is non-empty, else a fresh
uuid (consumed even when content construction later raises); the metadata
receives `str(source_id)` — the string `"None"` when the id was absent. -/
def build_langchain_document (source : RawRecord) (collection : String)
    (g : Nat) : Except MappingError Document × RawRecord × Nat :=
  let source_id := lookupV source "_id"
  let popped := source.filter (fun kv => kv.1 != "_id")
  let idAndGen :=
    match source_id with
    | some v =>
        let s := pyStr v
        if s = "" then create_random_uuid_hex g else (s, g)
    | Option.none => create_random_uuid_hex g
  match build_document_content popped collection with
  | .error e => (.error e, popped, idAndGen.2)
  | .ok content =>
      (.ok { page_content := content,
             metadata := build_document_metadata popped collection
               (some (pyStr (source_id.getD PyValue.none))),
             id := idAndGen.1 },
       popped, idAndGen.2)

/-! Batch buffer: `RagCollection` (rag/documents/document_manager.py). -/

/-- The module constant `PROCESS_MAX_RAG_DOCUMENTS`. -/
def PROCESS_MAX_RAG_DOCUMENTS : Nat := 500

/-- The `ValueError` raised by `RagCollection._check_max_size` when the
capacity ceiling would be breached — the spec's `CapacityExceeded`.
(The source's other `ValueError`, for `documents is None`, is unreachable
here: the embedding's `documents` is always an initialized list, as in
every construction site of `RagCollection` in the source.) -/
inductive CapacityError where
  | capacityExceeded
deriving DecidableEq

/-- `RagCollection`: the bounded in-memory batch buffer. -/
structure RagCollection where
  pid : Nat
  documents : List Document
  start_ts : Rat

/-- `RagCollection._check_max_size`: fails iff
`len(self.documents) + num_added >= PROCESS_MAX_RAG_DOCUMENTS`. -/
def check_max_size (c : RagCollection) (num_added : Nat) :
    Option CapacityError :=
  if PROCESS_MAX_RAG_DOCUMENTS ≤ c.documents.length + num_added then
    some .capacityExceeded
  else
    Option.none

/-- `RagCollection.add_documents`: the capacity check runs before the
`extend`, so on failure the buffer is returned untouched together with the
raised error. -/
def add_documents (c : RagCollection) (docs : List Document) :
    RagCollection × Option CapacityError :=
  match check_max_size c docs.length with
  | some e => (c, some e)
  | Option.none => ({ c with documents := c.documents ++ docs }, Option.none)

/-- `RagCollection.clear_documents`. -/
def clear_documents (c : RagCollection) : RagCollection :=
  { c with documents := [] }

/-- `RagCollection.vectorize`: result is the list of index-write calls
(`vector_store.add_documents` invocations, each carrying the documents
written by that single call), the empty-buffer warning flag, and the buffer
after the call.  When the buffer is empty the method warns and returns
before any write; otherwise it performs exactly one write over the whole
buffer.  The source never clears `self.documents`. -/
def vectorize (c : RagCollection) :
    List (List Document) × Bool × RagCollection :=
  if c.documents.isEmpty then ([], true, c)
  else ([c.documents], false, c)

/-! Collection processor: `CollectionProcessor.process` (processor.py). -/

/-- `TransactionDto` (datalake/repository.py): the domain object that
`TransactionMapper.to_domain` produces and `TransactionRepository.
get_by_filter` returns for every mongo document.  A plain Python object
exposing read-only properties — it is not a mapping and has no
`pop`/`get` item protocol.  (`amount` is idealized as a rational,
`posting_date` as the optional source date string; no verified claim
reads these fields.) -/
structure TransactionDto where
  record_id : String
  amount : Rat
  posting_date : Option String
  details : String
  tx_type : String
  description : String
  check_num : Option String

/-- The argument Python passes as `source` into
`build_langchain_document`: either a raw dict record (the mapper's own
contract, and what `BabylonDocumentsManager` feeds it from a cursor) or a
`TransactionDto` (what `CollectionProcessor.process` feeds it). -/
inductive SourceArg where
  | record (r : RawRecord)
  | dto (t : TransactionDto)

/-- A Python exception raised while handling one record: the mapper's
content-formatting failure (the spec's `MappingError`), or the
`AttributeError` raised by attribute access on an object of the wrong
shape (`pop` on a `TransactionDto`, `.id` on a dict). -/
inductive PyError where
  | attributeError
  | mappingError (e : MappingError)
deriving DecidableEq

/-- Python attribute access `transaction.id`, as evaluated inside the
except-handler's log f-string (processor.py:71): succeeds on a
`TransactionDto` (its `id` property), raises `AttributeError` on a dict. -/
def attr_id (source : SourceArg) : Except PyError String :=
  match source with
  | .dto t => .ok t.record_id
  | .record _ => .error .attributeError

/-- The dynamic call `build_langchain_document(source=transaction, ...)`
as `process` makes it: on a dict the mapper runs as embedded by
`build_langchain_document`; on a `TransactionDto` the very first
statement, `source.pop("_id", None)`, raises `AttributeError` — before
any uuid draw or content formatting — leaving the DTO untouched. -/
def build_langchain_document_dyn (source : SourceArg) (collection : String)
    (g : Nat) : Except PyError Document × SourceArg × Nat :=
  match source with
  | .dto t => (.error .attributeError, .dto t, g)
  | .record r =>
      match build_langchain_document r collection g with
      | (.error e, r2, g') => (.error (.mappingError e), .record r2, g')
      | (.ok d, r2, g') => (.ok d, .record r2, g')

/-- A per-record exception caught and logged by the `except Exception:`
handler inside the processing loop: either the mapper raised, or the
buffer's capacity check raised.  The list of these events models the
handler's log. -/
inductive ProcSkip where
  | mapFail (e : PyError)
  | addFail (e : CapacityError)
deriving DecidableEq

/-- The processing loop of `CollectionProcessor.process`: for each record,
`build_langchain_document` then `RagCollection.add_documents` of the
singleton list, the whole step wrapped in `try ... except Exception:`.
The handler first evaluates `transaction.id` for its log message — if that
access itself raises, the new exception propagates out of the loop;
otherwise the record is skipped and the loop continues.  The uuid entropy
state is threaded through every record. -/
def processLoop (collection : String) :
    List SourceArg → RagCollection → Nat → List ProcSkip →
      Except PyError (RagCollection × Nat × List ProcSkip)
  | [], c, g, sk => .ok (c, g, sk)
  | r :: rs, c, g, sk =>
      match build_langchain_document_dyn r collection g with
      | (.error e, _, g') =>
          match attr_id r with
          | .error e2 => .error e2
          | .ok _ => processLoop collection rs c g' (sk ++ [.mapFail e])
      | (.ok d, _, g') =>
          match add_documents c [d] with
          | (c', Option.none) => processLoop collection rs c' g' sk
          | (_, some e) =>
              match attr_id r with
              | .error e2 => .error e2
              | .ok _ => processLoop collection rs c g' (sk ++ [.addFail e])

/-- The observable outcome of one `process` call: the index-write calls
made by the final `vectorize`, the empty-buffer warning flag, the buffer
passed to `vectorize`, the log of per-record skips, and the final entropy
state. -/
structure ProcessResult where
  writes : List (List Document)
  warned : Bool
  buffer : RagCollection
  skips : List ProcSkip
  gen : Nat

/-- `CollectionProcessor.process`: fetches the collection's records as
`TransactionDto` objects (`transaction_repository.get_by_filter({})`),
builds a fresh empty `RagCollection` (pid and start timestamp recorded),
runs the per-record loop over those DTOs, then calls `vectorize` on the
accumulated buffer.  The `Except` layer carries an exception escaping the
loop.  (`__update_batch_number` only bumps an observability counter and is
modelled separately by `update_batch_number`.) -/
def process (collection : String) (transactions : List TransactionDto)
    (g : Nat) (pid : Nat) (ts : Rat) : Except PyError ProcessResult :=
  let c0 : RagCollection := { pid := pid, documents := [], start_ts := ts }
  match processLoop collection (transactions.map SourceArg.dto) c0 g [] with
  | .error e => .error e
  | .ok (c1, g1, sk) =>
      let flushResult := vectorize c1
      .ok { writes := flushResult.1, warned := flushResult.2.1,
            buffer := flushResult.2.2, skips := sk, gen := g1 }

/-- `CollectionProcessor.__update_batch_number`. -/
def update_batch_number (batch_number : Nat) : Nat :=
  batch_number + 1

/-! Scan session: `UnitOfWork` (datalake/uow.py). -/

/-- An exception propagating through a scope.  Every exception type raised
on the daemon's cycle path derives from Python's `Exception`. -/
inductive Exn where
  | datalakeError
  | ragError
  | vectorDBError
  | valueError
  | otherError

/-- Lifecycle state of the lake transaction held by a session. -/
inductive TxStatus where
  | active
  | committed
  | aborted
deriving DecidableEq

/-- A MongoDB client session as the unit of work sees it. -/
structure MongoSession where
  tx : TxStatus
  ended : Bool

/-- `UnitOfWork.__enter__` precondition: `start_session()` +
`start_transaction()` yield an active, unreleased session. -/
def uow_enter : MongoSession :=
  { tx := .active, ended := false }

/-- `UnitOfWork.__exit__`: aborts when an exception type is present,
commits otherwise, and ends the session in both cases.  The method returns
`None` (falsy), so any exception keeps propagating. -/
def uow_exit (excType : Option Exn) (s : MongoSession) : MongoSession :=
  if excType.isSome then { s with tx := .aborted, ended := true }
  else { s with tx := .committed, ended := true }

/-- The `with UnitOfWork(client) as session:` scope: runs the body on the
fresh session, then invokes `__exit__` with the exception type that
propagated through the scope (if any), re-raising it afterwards. -/
def withUnitOfWork {α : Type} (body : MongoSession → Except Exn α × MongoSession) :
    Except Exn α × MongoSession :=
  match body uow_enter with
  | (.error e, s1) => (.error e, uow_exit (some e) s1)
  | (.ok a, s1) => (.ok a, uow_exit Option.none s1)

/-! Scheduler: `Daemon.run` (daemon.py). -/

/-- What one `self.__process()` call did: returned, or raised an exception
(the cycle path raises only `Exception` subclasses — the lone
`BaseException` subclass in the repository, `DocumentsCollectionError`, is
raised only in `documents_collection.py`, which the daemon never calls). -/
inductive CycleOutcome where
  | ok
  | raised (e : Exn)

/-- External inputs to one loop iteration: the cycle's outcome, its
measured duration in seconds, and whether the stop signal arrived during
this iteration (setting `self._running` to `False` before the next loop
test). -/
structure Tick where
  outcome : CycleOutcome
  duration : Rat
  stopDuring : Bool

/-- Observable events of the daemon loop. -/
inductive DEvent where
  | cycleOk
  | cycleErrorLogged (e : Exn)
  | slept (q : Rat)
  | overrunWarned
  | shutdown

/-- The body of one `while self._running:` iteration after the loop test:
`try: self.__process() except Exception: log`, then
`sleep_time = min_loop_seconds - duration`; sleep exactly `sleep_time` if
it is positive, otherwise log the overrun warning. -/
def tickEvents (minLoop : Rat) (t : Tick) : List DEvent :=
  (match t.outcome with
   | .ok => [DEvent.cycleOk]
   | .raised e => [DEvent.cycleErrorLogged e]) ++
  (if 0 < minLoop - t.duration then [DEvent.slept (minLoop - t.duration)]
   else [DEvent.overrunWarned])

/-- `Daemon.run`: loops while the running flag is set, consuming the
supplied schedule of iteration inputs; when the flag is found unset the
loop exits and the shutdown message is logged.  An exhausted schedule with
the flag still set means the daemon is still running (no shutdown event). -/
def runDaemon (minLoop : Rat) : Bool → List Tick → List DEvent
  | false, _ => [DEvent.shutdown]
  | true, [] => []
  | true, t :: ts =>
      tickEvents minLoop t ++ runDaemon minLoop (!t.stopDuring) ts

/-- Events marking that one full cycle was attempted (step 2 of a tick). -/
def isCycleEvent : DEvent → Bool
  | .cycleOk => true
  | .cycleErrorLogged _ => true
  | _ => false

/-- Number of cycles the loop attempted. -/
def cyclesRun (evs : List DEvent) : Nat :=
  (evs.filter isCycleEvent).length

/-! ### Helper lemmas on association lists -/

theorem lookup_eq_none_iff {β : Type} (l : List (String × β)) (k : String) :
    l.lookup k = Option.none ↔ ∀ kv ∈ l, kv.1 ≠ k := by
  induction l with
  | nil => simp
  | cons hd tl ih =>
    obtain ⟨k1, v1⟩ := hd
    cases hbeq : k == k1 with
    | false =>
      have hne : k1 ≠ k := by
        intro h
        subst h
        simp at hbeq
      simp [List.lookup_cons, hbeq, ih, hne]
    | true =>
      have heq : k = k1 := by simpa using hbeq
      subst heq
      simp [List.lookup_cons, hbeq]

theorem lookup_append_of_keys_ne {β : Type} {l₁ : List (String × β)}
    (l₂ : List (String × β)) (k : String) (h : ∀ kv ∈ l₁, kv.1 ≠ k) :
    (l₁ ++ l₂).lookup k = l₂.lookup k := by
  induction l₁ with
  | nil => simp
  | cons hd tl ih =>
    obtain ⟨k1, v1⟩ := hd
    have hne : k1 ≠ k := h (k1, v1) (by simp)
    have hbeq : (k == k1) = false := by
      simpa using fun hkk => hne hkk.symm
    simpa [List.lookup_cons, hbeq] using
      ih (fun kv hkv => h kv (List.mem_cons_of_mem _ hkv))

theorem lookup_filter_keys_ne {β : Type} {p : String × β → Bool}
    {l₁ : List (String × β)} (l₂ : List (String × β)) (k : String)
    (h : ∀ kv ∈ l₁, kv.1 ≠ k) :
    ((l₁ ++ l₂).filter p).lookup k = (l₂.filter p).lookup k := by
  rw [List.filter_append]
  exact lookup_append_of_keys_ne _ k
    (fun kv hkv => h kv (List.mem_filter.mp hkv).1)

theorem lookup_filter_pivot {p : String × PyValue → Bool}
    (pre rest : Metadata) (k : String) (v : PyValue)
    (hpre : ∀ kv ∈ pre, kv.1 ≠ k) (hrest : ∀ kv ∈ rest, kv.1 ≠ k) :
    ((pre ++ (k, v) :: rest).filter p).lookup k =
      if p (k, v) then some v else Option.none := by
  rw [List.filter_append,
    lookup_append_of_keys_ne _ k
      (fun kv hkv => hpre kv (List.mem_filter.mp hkv).1),
    List.filter_cons]
  by_cases hp : p (k, v)
  · simp [hp, List.lookup_cons]
  · simp only [hp, Bool.false_eq_true, if_false]
    exact (lookup_eq_none_iff _ _).mpr
      (fun kv hkv => hrest kv (List.mem_filter.mp hkv).1)

theorem isNone_eq_false_iff (v : PyValue) : isNone v = false ↔ v ≠ PyValue.none := by
  cases v <;> simp [isNone]

/-! ### C1: all-or-nothing capacity check of the batch buffer -/

/-- The behaviour of `add_documents` on both sides of the capacity test:
append in full below the ceiling, raise leaving the buffer untouched at or
above it. -/
theorem add_documents_all_or_nothing (c : RagCollection)
    (docs : List Document) :
    (c.documents.length + docs.length < PROCESS_MAX_RAG_DOCUMENTS →
      add_documents c docs =
        ({ c with documents := c.documents ++ docs }, Option.none)) ∧
    (PROCESS_MAX_RAG_DOCUMENTS ≤ c.documents.length + docs.length →
      add_documents c docs = (c, some CapacityError.capacityExceeded)) := by
  constructor
  · intro h
    have hnot : ¬ PROCESS_MAX_RAG_DOCUMENTS ≤ c.documents.length + docs.length := by
      omega
    simp [add_documents, check_max_size, hnot]
  · intro h
    simp [add_documents, check_max_size, h]

/-- C1: `add_documents` appends exactly when the current length plus the
number of new units is strictly below `PROCESS_MAX_RAG_DOCUMENTS`;
otherwise it raises the capacity error and the buffer is exactly as
before the call — no partial append. -/
theorem C1_add_documents_all_or_nothing (c : RagCollection)
    (docs : List Document) :
    (c.documents.length + docs.length < PROCESS_MAX_RAG_DOCUMENTS →
      add_documents c docs =
        ({ c with documents := c.documents ++ docs }, Option.none)) ∧
    (PROCESS_MAX_RAG_DOCUMENTS ≤ c.documents.length + docs.length →
      add_documents c docs = (c, some CapacityError.capacityExceeded)) :=
  add_documents_all_or_nothing c docs

/-- A minimal concrete document for concrete instances. -/
def doc0 : Document := { page_content := "", metadata := [], id := "d0" }

/-- An empty concrete buffer. -/
def bufEmpty : RagCollection := { pid := 1, documents := [], start_ts := 0 }

/-- A concrete buffer already at the capacity ceiling. -/
def bufFull : RagCollection :=
  { pid := 1, documents := List.replicate 500 doc0, start_ts := 0 }

/-- Witness for C1 on both sides of the capacity test. -/
theorem C1_witness :
    add_documents bufEmpty [doc0] =
      ({ bufEmpty with documents := bufEmpty.documents ++ [doc0] },
        Option.none) ∧
    add_documents bufFull [doc0] =
      (bufFull, some CapacityError.capacityExceeded) :=
  ⟨(C1_add_documents_all_or_nothing bufEmpty [doc0]).1
      (by simp only [bufEmpty, List.length_nil, List.length_cons,
        PROCESS_MAX_RAG_DOCUMENTS]; omega),
   (C1_add_documents_all_or_nothing bufFull [doc0]).2
      (by simp only [bufFull, List.length_replicate, List.length_cons,
        List.length_nil, PROCESS_MAX_RAG_DOCUMENTS]; omega)⟩

/-! ### C4: flush behaviour of the batch buffer -/

/-- C4 (amended): an empty buffer is flushed as a warning no-op with no
index write; a non-empty buffer is written to the index in exactly one
call carrying the whole buffer — but `vectorize` never clears the buffer,
which keeps its contents in both cases. -/
theorem C4_vectorize_single_write_no_clear (c : RagCollection) :
    (c.documents = [] → vectorize c = ([], true, c)) ∧
    (c.documents ≠ [] → vectorize c = ([c.documents], false, c)) := by
  constructor
  · intro h
    simp [vectorize, h]
  · intro h
    simp [vectorize, h]

/-- A concrete one-document buffer. -/
def bufOne : RagCollection := { pid := 1, documents := [doc0], start_ts := 0 }

/-- C4 counterexample: after the flush of a non-empty buffer the buffer
still holds its documents — the claim's "then clears the buffer, leaving
it empty" is false of `vectorize`. -/
theorem C4_counterexample :
    (vectorize bufOne).2.2.documents ≠ [] := by
  simp [vectorize, bufOne]

/-- Witness for C4 at concrete empty and non-empty buffers. -/
theorem C4_witness :
    vectorize bufEmpty = ([], true, bufEmpty) ∧
    vectorize bufOne = ([bufOne.documents], false, bufOne) :=
  ⟨(C4_vectorize_single_write_no_clear bufEmpty).1 rfl,
   (C4_vectorize_single_write_no_clear bufOne).2 (by simp [bufOne])⟩

/-! ### C5: scan-session commit/abort discipline -/

/-- C5: the unit-of-work scope commits exactly when no exception
propagated through it, aborts when one did, and releases (ends) the
session in both cases. -/
theorem C5_uow_commit_iff_clean {α : Type}
    (body : MongoSession → Except Exn α × MongoSession) :
    (withUnitOfWork body).2.ended = true ∧
    ((withUnitOfWork body).2.tx = TxStatus.committed ↔
      ∃ a, (withUnitOfWork body).1 = Except.ok a) ∧
    (∀ e : Exn, (withUnitOfWork body).1 = Except.error e →
      (withUnitOfWork body).2.tx = TxStatus.aborted) := by
  rcases h : body uow_enter with ⟨r, s1⟩
  cases r <;> simp [withUnitOfWork, h, uow_exit]

/-- A concrete scope body that raises `DatalakeError` mid-iteration. -/
def bodyFailsDatalake : MongoSession → Except Exn Unit × MongoSession :=
  fun s => (Except.error Exn.datalakeError, s)

/-- Witness for C5: a `DatalakeError` inside the scope yields an aborted,
released session — never a commit. -/
theorem C5_witness :
    (withUnitOfWork bodyFailsDatalake).2.tx = TxStatus.aborted ∧
    (withUnitOfWork bodyFailsDatalake).2.ended = true :=
  ⟨(C5_uow_commit_iff_clean bodyFailsDatalake).2.2 Exn.datalakeError rfl,
   (C5_uow_commit_iff_clean bodyFailsDatalake).1⟩

/-! ### C6: the scheduler loop absorbs cycle exceptions -/

theorem cyclesRun_append (evs1 evs2 : List DEvent) :
    cyclesRun (evs1 ++ evs2) = cyclesRun evs1 + cyclesRun evs2 := by
  simp [cyclesRun, List.filter_append]

theorem cyclesRun_tickEvents (minLoop : Rat) (t : Tick) :
    cyclesRun (tickEvents minLoop t) = 1 := by
  cases ho : t.outcome <;>
    by_cases hp : 0 < minLoop - t.duration <;>
      simp [tickEvents, cyclesRun, isCycleEvent, ho, hp]

theorem shutdown_not_mem_tickEvents (minLoop : Rat) (t : Tick) :
    DEvent.shutdown ∉ tickEvents minLoop t := by
  cases ho : t.outcome <;>
    by_cases hp : 0 < minLoop - t.duration <;>
      simp [tickEvents, ho, hp]

/-- C6: when no stop signal arrives, the scheduler attempts every cycle of
the schedule — raised cycle exceptions are caught and logged, never
terminating the loop — and the loop never reaches shutdown. -/
theorem C6_daemon_survives_cycle_errors (minLoop : Rat) (ts : List Tick)
    (h : ∀ t ∈ ts, t.stopDuring = false) :
    cyclesRun (runDaemon minLoop true ts) = ts.length ∧
    DEvent.shutdown ∉ runDaemon minLoop true ts := by
  induction ts with
  | nil => simp [runDaemon, cyclesRun]
  | cons t ts ih =>
    have ht : t.stopDuring = false := h t (by simp)
    obtain ⟨ih1, ih2⟩ := ih (fun t' h' => h t' (List.mem_cons_of_mem _ h'))
    constructor
    · rw [runDaemon, ht, Bool.not_false, cyclesRun_append,
        cyclesRun_tickEvents, ih1]
      simp [Nat.add_comm]
    · rw [runDaemon, ht, Bool.not_false]
      intro hmem
      rcases List.mem_append.mp hmem with hmem | hmem
      · exact shutdown_not_mem_tickEvents minLoop t hmem
      · exact ih2 hmem

/-- A concrete schedule in which two of three cycles raise. -/
def errTicks : List Tick :=
  [{ outcome := .raised Exn.datalakeError, duration := 1, stopDuring := false },
   { outcome := .raised Exn.otherError, duration := 6, stopDuring := false },
   { outcome := .ok, duration := 2, stopDuring := false }]

/-- Witness for C6: all three cycles of a schedule with two failing cycles
are attempted and the loop never shuts down. -/
theorem C6_witness :
    cyclesRun (runDaemon 5 true errTicks) = errTicks.length ∧
    DEvent.shutdown ∉ runDaemon 5 true errTicks :=
  C6_daemon_survives_cycle_errors 5 errTicks (by
    intro t h
    simp only [errTicks, List.mem_cons, List.not_mem_nil, or_false] at h
    rcases h with h | h | h <;> subst h <;> rfl)

/-! ### C7: minimum-cadence sleep or overrun warning -/

/-- C7: when the cycle duration is below the configured minimum loop
seconds, the tick sleeps exactly the remainder (so the next tick starts at
least the minimum after this one started) and no overrun is logged;
otherwise it sleeps not at all and logs the overrun warning. -/
theorem C7_sleep_remainder_or_overrun (minLoop : Rat) (t : Tick) :
    (t.duration < minLoop →
      DEvent.slept (minLoop - t.duration) ∈ tickEvents minLoop t ∧
      DEvent.overrunWarned ∉ tickEvents minLoop t ∧
      t.duration + (minLoop - t.duration) = minLoop) ∧
    (minLoop ≤ t.duration →
      (∀ q : Rat, DEvent.slept q ∉ tickEvents minLoop t) ∧
      DEvent.overrunWarned ∈ tickEvents minLoop t) := by
  constructor
  · intro h
    have hpos : 0 < minLoop - t.duration := by linarith
    refine ⟨?_, ?_, by ring⟩ <;> cases ho : t.outcome <;>
      simp [tickEvents, ho, hpos]
  · intro h
    have hnot : ¬ 0 < minLoop - t.duration := by
      simp only [not_lt]
      linarith
    constructor
    · intro q
      cases ho : t.outcome <;> simp [tickEvents, ho, hnot]
    · cases ho : t.outcome <;> simp [tickEvents, ho, hnot]

/-- A tick whose cycle finished after 1 second. -/
def tickShort : Tick := { outcome := .ok, duration := 1, stopDuring := false }

/-- A tick whose cycle overran, taking 6 seconds. -/
def tickLong : Tick := { outcome := .ok, duration := 6, stopDuring := false }

/-- Witness for C7 with minimum loop seconds 5: the 1-second cycle sleeps
exactly 4 seconds, the 6-second cycle sleeps not at all and warns. -/
theorem C7_witness :
    (DEvent.slept (5 - tickShort.duration) ∈ tickEvents 5 tickShort ∧
      DEvent.overrunWarned ∉ tickEvents 5 tickShort ∧
      tickShort.duration + (5 - tickShort.duration) = 5) ∧
    ((∀ q : Rat, DEvent.slept q ∉ tickEvents 5 tickLong) ∧
      DEvent.overrunWarned ∈ tickEvents 5 tickLong) :=
  ⟨(C7_sleep_remainder_or_overrun 5 tickShort).1 (by norm_num [tickShort]),
   (C7_sleep_remainder_or_overrun 5 tickLong).2 (by norm_num [tickLong])⟩

/-! ### Metadata merge-loop invariant -/

/-- Invariant of the metadata merge loop: the accumulated dict is the
explicit dict followed by merged source fields; every merged field has a
scalar-or-None value and a key foreign to the explicit dict. -/
theorem foldl_mergeStep_decomp (m0 : Metadata) (source : RawRecord) :
    ∀ acc : Metadata,
      (∃ extra, acc = m0 ++ extra ∧
        ∀ kv ∈ extra, isSimpleType kv.2 = true ∧ ∀ kv0 ∈ m0, kv0.1 ≠ kv.1) →
      ∃ extra, source.foldl mergeStep acc = m0 ++ extra ∧
        ∀ kv ∈ extra, isSimpleType kv.2 = true ∧ ∀ kv0 ∈ m0, kv0.1 ≠ kv.1 := by
  induction source with
  | nil =>
    intro acc h
    simpa using h
  | cons r rs ih =>
    intro acc hacc
    obtain ⟨extra, rfl, hex⟩ := hacc
    rw [List.foldl_cons]
    apply ih
    by_cases hmem : ((m0 ++ extra).lookup r.1).isSome = true
    · exact ⟨extra, by simp [mergeStep, hmem], hex⟩
    · have hnone : (m0 ++ extra).lookup r.1 = Option.none := by
        cases hcase : (m0 ++ extra).lookup r.1 with
        | none => rfl
        | some v => rw [hcase] at hmem; simp at hmem
      have hkeys : ∀ kv0 ∈ m0, kv0.1 ≠ r.1 := fun kv0 h0 =>
        (lookup_eq_none_iff _ _).mp hnone kv0 (List.mem_append.mpr (.inl h0))
      by_cases hcx : isComplexType r.2 = true
      · exact ⟨extra, by simp [mergeStep, hnone, hcx], hex⟩
      · by_cases hsp : isSimpleType r.2 = true
        · refine ⟨extra ++ [r],
            by simp [mergeStep, hnone, hcx, hsp, List.append_assoc], ?_⟩
          intro kv hkv
          rcases List.mem_append.mp hkv with hkv | hkv
          · exact hex kv hkv
          · simp only [List.mem_singleton] at hkv
            subst hkv
            exact ⟨hsp, hkeys⟩
        · refine ⟨extra ++ [(r.1, PyValue.str (pyStr r.2))],
            by simp [mergeStep, hnone, hcx, hsp, List.append_assoc], ?_⟩
          intro kv hkv
          rcases List.mem_append.mp hkv with hkv | hkv
          · exact hex kv hkv
          · simp only [List.mem_singleton] at hkv
            subst hkv
            exact ⟨rfl, hkeys⟩

/-- The merged metadata dict decomposes as the explicit dict followed by
scalar-valued fields with foreign keys. -/
theorem metadata_decomp (source : RawRecord) (collection : String)
    (source_id : Option String) :
    ∃ extra,
      source.foldl mergeStep (explicitMetadata collection source_id source) =
        explicitMetadata collection source_id source ++ extra ∧
      ∀ kv ∈ extra, isSimpleType kv.2 = true ∧
        ∀ kv0 ∈ explicitMetadata collection source_id source, kv0.1 ≠ kv.1 :=
  foldl_mergeStep_decomp _ source _ ⟨[], by simp, by simp⟩

/-- Looking up one of the explicit keys in the final metadata yields its
explicit-dict value when that value is not `None`, and nothing otherwise:
the merge loop never shadows an explicit key and the final comprehension
drops exactly the `None` values. -/
theorem metadata_lookup_explicit (source : RawRecord) (collection : String)
    (source_id : Option String) (pre rest : Metadata) (k : String)
    (v : PyValue)
    (hsplit : explicitMetadata collection source_id source =
      pre ++ (k, v) :: rest)
    (hpre : ∀ kv ∈ pre, kv.1 ≠ k) (hrest : ∀ kv ∈ rest, kv.1 ≠ k) :
    (build_document_metadata source collection source_id).lookup k =
      if isNone v then Option.none else some v := by
  obtain ⟨extra, hdec, hex⟩ := metadata_decomp source collection source_id
  unfold build_document_metadata
  rw [hdec, hsplit, show (pre ++ (k, v) :: rest) ++ extra =
      pre ++ (k, v) :: (rest ++ extra) from by simp]
  rw [lookup_filter_pivot pre (rest ++ extra) k v hpre ?hr]
  · cases hv : isNone v <;> simp [hv]
  case hr =>
    intro kv hkv
    rcases List.mem_append.mp hkv with hkv | hkv
    · exact hrest kv hkv
    · exact Ne.symm ((hex kv hkv).2 (k, v)
        (hsplit ▸ List.mem_append.mpr (.inr (by simp))))

/-! ### C8: the mapper mutates the caller's record -/

/-- The record handed back to the caller after mapping is the record with
its `_id` entry popped, in both the success and the failure branch. -/
theorem build_popped_eq (source : RawRecord) (collection : String)
    (g : Nat) :
    (build_langchain_document source collection g).2.1 =
      source.filter (fun kv => kv.1 != "_id") := by
  unfold build_langchain_document
  cases hs : lookupV source "_id" <;>
    cases hc : build_document_content
        (source.filter (fun kv => kv.1 != "_id")) collection <;>
      simp [hs, hc]

/-- A record that went through the `_id` pop has no `_id` key left. -/
theorem lookupV_filter_id_none (source : RawRecord) :
    lookupV (source.filter (fun kv => kv.1 != "_id")) "_id" = Option.none :=
  (lookup_eq_none_iff _ _).mpr (fun kv hkv => by
    have := (List.mem_filter.mp hkv).2
    simpa using this)

/-- C8 (amended): mapping pops the identifier field from the caller's
record in place — a record containing `_id` is mutated (its `_id` entry is
deleted), not left unchanged — while the produced content is built from
the remaining fields only, so it does not depend on the `_id` entry. -/
theorem C8_mapper_mutates_record (source : RawRecord) (collection : String)
    (g : Nat) (v : PyValue) (h : ("_id", v) ∈ source) :
    (build_langchain_document source collection g).2.1 =
      source.filter (fun kv => kv.1 != "_id") ∧
    (build_langchain_document source collection g).2.1 ≠ source ∧
    (build_langchain_document source collection g).1.map
        Document.page_content =
      (build_langchain_document (source.filter (fun kv => kv.1 != "_id"))
          collection g).1.map Document.page_content := by
  refine ⟨build_popped_eq source collection g, ?_, ?_⟩
  · rw [build_popped_eq]
    intro hEq
    have hlen : (source.filter (fun kv => kv.1 != "_id")).length <
        source.length :=
      List.length_filter_lt_length_iff_exists.mpr ⟨("_id", v), h, by simp⟩
    rw [hEq] at hlen
    exact lt_irrefl _ hlen
  · have hff : (source.filter (fun kv => kv.1 != "_id")).filter
        (fun kv => kv.1 != "_id") = source.filter (fun kv => kv.1 != "_id") := by
      rw [List.filter_filter]
      simp
    unfold build_langchain_document
    rw [lookupV_filter_id_none, hff]
    cases hs : lookupV source "_id" <;>
      cases hc : build_document_content
          (source.filter (fun kv => kv.1 != "_id")) collection <;>
        simp [hs, hc, Except.map]

/-- A concrete record that carries its identifier field. -/
def recWithId : RawRecord :=
  [("_id", PyValue.str "a"), ("Description", PyValue.str "d")]

/-- C8 counterexample: after mapping, the caller's record has lost its
`_id` entry — the raw record is not left unchanged by the Document
Mapper. -/
theorem C8_counterexample :
    (build_langchain_document recWithId "c" 0).2.1 ≠ recWithId := by
  have hv : (build_langchain_document recWithId "c" 0).2.1 =
      [("Description", PyValue.str "d")] := rfl
  rw [hv]
  intro h
  exact absurd (congrArg List.length h) (by decide)

/-- Witness for C8 at a concrete record containing `_id`. -/
theorem C8_witness :
    (build_langchain_document recWithId "c" 0).2.1 =
      recWithId.filter (fun kv => kv.1 != "_id") ∧
    (build_langchain_document recWithId "c" 0).2.1 ≠ recWithId ∧
    (build_langchain_document recWithId "c" 0).1.map Document.page_content =
      (build_langchain_document (recWithId.filter (fun kv => kv.1 != "_id"))
          "c" 0).1.map Document.page_content :=
  C8_mapper_mutates_record recWithId "c" 0 (PyValue.str "a")
    (by simp [recWithId])

/-! ### C9: document ids and metadata source ids of id-less records -/

theorem uuid_length (g : Nat) :
    (create_random_uuid_hex g).1.length = g + 1 := by
  show (List.replicate (g + 1) 'f').length = g + 1
  simp

theorem uuid_ne_of_ne (g g' : Nat) (h : g ≠ g') :
    (create_random_uuid_hex g).1 ≠ (create_random_uuid_hex g').1 := by
  intro hEq
  have hlen := congrArg String.length hEq
  rw [uuid_length, uuid_length] at hlen
  omega

theorem uuid_ne_empty (g : Nat) : (create_random_uuid_hex g).1 ≠ "" := by
  intro hEq
  have hlen := congrArg String.length hEq
  rw [uuid_length] at hlen
  simp at hlen

/-- C9 (amended): for a record lacking `_id`, the mapper consumes one draw
of the process-local random source; the produced document's top-level `id`
is that fresh draw, which is non-empty and distinct from every draw at a
different entropy state — but the unit's metadata source-record identifier
is the literal string `"None"` (the `str()` of the absent id), identical
across all such units. -/
theorem C9_fresh_doc_id_constant_metadata_id (source : RawRecord)
    (collection : String) (g : Nat)
    (h : lookupV source "_id" = Option.none) :
    (build_langchain_document source collection g).2.2 = g + 1 ∧
    (∀ d : Document,
      (build_langchain_document source collection g).1 = Except.ok d →
        d.id = (create_random_uuid_hex g).1 ∧
        d.id ≠ "" ∧
        d.metadata.lookup "source_document_id" =
          some (PyValue.str "None")) ∧
    (∀ g' : Nat, g' ≠ g →
      (create_random_uuid_hex g).1 ≠ (create_random_uuid_hex g').1) := by
  refine ⟨?_, ?_, fun g' hne => uuid_ne_of_ne g g' (Ne.symm hne)⟩
  · unfold build_langchain_document
    cases hc : build_document_content
        (source.filter (fun kv => kv.1 != "_id")) collection <;>
      simp [h, hc, create_random_uuid_hex]
  · intro d hd
    unfold build_langchain_document at hd
    simp only [h] at hd
    cases hc : build_document_content
        (source.filter (fun kv => kv.1 != "_id")) collection with
    | error e =>
      rw [hc] at hd
      simp at hd
    | ok content =>
      rw [hc] at hd
      simp only [Except.ok.injEq] at hd
      subst hd
      refine ⟨rfl, uuid_ne_empty g, ?_⟩
      rw [show pyStr (Option.none.getD PyValue.none) = "None" from rfl]
      rw [metadata_lookup_explicit
        (source.filter (fun kv => kv.1 != "_id")) collection (some "None")
        [("source_collection", PyValue.str collection)]
        [("transaction_date",
            getN (source.filter (fun kv => kv.1 != "_id")) "PostingDate"),
          ("amount", getN (source.filter (fun kv => kv.1 != "_id")) "Amount"),
          ("type", getN (source.filter (fun kv => kv.1 != "_id")) "Type")]
        "source_document_id" (PyValue.str "None") rfl ?hp ?hr]
      · simp [isNone]
      case hp =>
        intro kv hkv
        simp only [List.mem_singleton] at hkv
        subst hkv
        exact (by decide : "source_collection" ≠ "source_document_id")
      case hr =>
        intro kv hkv
        simp only [List.mem_cons, List.not_mem_nil, or_false] at hkv
        rcases hkv with hkv | hkv | hkv <;> subst hkv <;>
          first
          | exact (by decide : "transaction_date" ≠ "source_document_id")
          | exact (by decide : "amount" ≠ "source_document_id")
          | exact (by decide : "type" ≠ "source_document_id")

/-- A concrete record lacking the `_id` field. -/
def recNoId : RawRecord :=
  [("Description", PyValue.str "x"), ("Amount", PyValue.int 1)]

/-- C9 counterexample: two units built in the same process from records
lacking `_id` carry the same metadata source-record identifier — the
literal string `"None"` — which is neither freshly generated nor distinct
between the two units. -/
theorem C9_counterexample :
    (build_langchain_document recNoId "c" 0).1.map
        (fun d => d.metadata.lookup "source_document_id") =
      Except.ok (some (PyValue.str "None")) ∧
    (build_langchain_document recNoId "c"
        (build_langchain_document recNoId "c" 0).2.2).1.map
        (fun d => d.metadata.lookup "source_document_id") =
      Except.ok (some (PyValue.str "None")) :=
  ⟨rfl, rfl⟩

/-- Witness for C9 at a concrete record lacking `_id`: the entropy state
advances, the built document carries the fresh non-empty id of state 0,
and the draw of the next state differs from it. -/
theorem C9_witness :
    (build_langchain_document recNoId "c" 0).2.2 = 0 + 1 ∧
    (build_langchain_document recNoId "c" 0).1.map Document.id =
      Except.ok (create_random_uuid_hex 0).1 ∧
    (create_random_uuid_hex 0).1 ≠ "" ∧
    (create_random_uuid_hex 1).1 ≠ (create_random_uuid_hex 0).1 := by
  have h := C9_fresh_doc_id_constant_metadata_id recNoId "c" 0 rfl
  refine ⟨h.1, ?_, uuid_ne_empty 0, Ne.symm (h.2.2 1 (by decide))⟩
  have hok : ((build_langchain_document recNoId "c" 0).1).isOk = true := rfl
  cases hb : (build_langchain_document recNoId "c" 0).1 with
  | error e =>
    rw [hb] at hok
    simp [Except.isOk, Except.toBool] at hok
  | ok d =>
    simp [Except.map, (h.2.1 d hb).1]

/-! ### C10: shape of the produced metadata mapping -/

/-- The keys of the explicit metadata fields. -/
def explicitKeys : List String :=
  ["source_collection", "source_document_id", "transaction_date",
   "amount", "type"]

theorem keys_ne_of_map {β : Type} (l : List (String × β)) (k : String)
    (h : ∀ s ∈ l.map Prod.fst, s ≠ k) : ∀ kv ∈ l, kv.1 ≠ k :=
  fun kv hkv => h kv.1 (List.mem_map.mpr ⟨kv, hkv, rfl⟩)

theorem keys_of_explicit (collection : String) (source_id : Option String)
    (source : RawRecord) :
    ∀ kv ∈ explicitMetadata collection source_id source,
      kv.1 ∈ explicitKeys := by
  intro kv hkv
  simp only [explicitMetadata, List.mem_cons, List.not_mem_nil,
    or_false] at hkv
  rcases hkv with hkv | hkv | hkv | hkv | hkv <;> subst hkv <;>
    first
    | exact (by decide : "source_collection" ∈ explicitKeys)
    | exact (by decide : "source_document_id" ∈ explicitKeys)
    | exact (by decide : "transaction_date" ∈ explicitKeys)
    | exact (by decide : "amount" ∈ explicitKeys)
    | exact (by decide : "type" ∈ explicitKeys)

/-- C10 (amended): the produced metadata contains no `None` values —
explicit fields whose source value is absent are omitted, not kept as
null; every value under a key outside the explicit five is scalar-typed
(lists and dicts are skipped, other non-scalars stringified); and each
explicit field passes its source value through verbatim — whatever its
type — surviving exactly when it is not `None`. -/
theorem C10_metadata_shape (source : RawRecord) (collection : String)
    (source_id : Option String) :
    (∀ kv ∈ build_document_metadata source collection source_id,
      kv.2 ≠ PyValue.none) ∧
    (∀ kv ∈ build_document_metadata source collection source_id,
      kv.1 ∉ explicitKeys → isSimpleType kv.2 = true) ∧
    ((build_document_metadata source collection source_id).lookup
        "source_document_id" = source_id.map PyValue.str) ∧
    ((build_document_metadata source collection source_id).lookup
        "transaction_date" =
      if isNone (getN source "PostingDate") then Option.none
      else some (getN source "PostingDate")) ∧
    ((build_document_metadata source collection source_id).lookup
        "amount" =
      if isNone (getN source "Amount") then Option.none
      else some (getN source "Amount")) ∧
    ((build_document_metadata source collection source_id).lookup
        "type" =
      if isNone (getN source "Type") then Option.none
      else some (getN source "Type")) := by
  obtain ⟨extra, hdec, hex⟩ := metadata_decomp source collection source_id
  refine ⟨?_, ?_, ?_, ?_, ?_, ?_⟩
  · intro kv hkv
    unfold build_document_metadata at hkv
    have hp := (List.mem_filter.mp hkv).2
    simp only [Bool.not_eq_true'] at hp
    exact (isNone_eq_false_iff kv.2).mp hp
  · intro kv hkv hnot
    unfold build_document_metadata at hkv
    have hin := (List.mem_filter.mp hkv).1
    rw [hdec] at hin
    rcases List.mem_append.mp hin with hin | hin
    · exact absurd (keys_of_explicit collection source_id source kv hin) hnot
    · exact (hex kv hin).1
  · rw [metadata_lookup_explicit source collection source_id
      [("source_collection", PyValue.str collection)]
      [("transaction_date", getN source "PostingDate"),
       ("amount", getN source "Amount"),
       ("type", getN source "Type")]
      "source_document_id" (sidValue source_id) rfl
      (keys_ne_of_map _ _
        (by decide : ∀ s ∈ ["source_collection"],
          s ≠ "source_document_id"))
      (keys_ne_of_map _ _
        (by decide : ∀ s ∈ ["transaction_date", "amount", "type"],
          s ≠ "source_document_id"))]
    cases source_id <;> simp [sidValue, isNone]
  · rw [metadata_lookup_explicit source collection source_id
      [("source_collection", PyValue.str collection),
       ("source_document_id", sidValue source_id)]
      [("amount", getN source "Amount"),
       ("type", getN source "Type")]
      "transaction_date" (getN source "PostingDate") rfl
      (keys_ne_of_map _ _
        (by decide : ∀ s ∈ ["source_collection", "source_document_id"],
          s ≠ "transaction_date"))
      (keys_ne_of_map _ _
        (by decide : ∀ s ∈ ["amount", "type"], s ≠ "transaction_date"))]
  · rw [metadata_lookup_explicit source collection source_id
      [("source_collection", PyValue.str collection),
       ("source_document_id", sidValue source_id),
       ("transaction_date", getN source "PostingDate")]
      [("type", getN source "Type")]
      "amount" (getN source "Amount") rfl
      (keys_ne_of_map _ _
        (by decide : ∀ s ∈ ["source_collection", "source_document_id",
          "transaction_date"], s ≠ "amount"))
      (keys_ne_of_map _ _
        (by decide : ∀ s ∈ ["type"], s ≠ "amount"))]
  · rw [metadata_lookup_explicit source collection source_id
      [("source_collection", PyValue.str collection),
       ("source_document_id", sidValue source_id),
       ("transaction_date", getN source "PostingDate"),
       ("amount", getN source "Amount")]
      []
      "type" (getN source "Type") rfl
      (keys_ne_of_map _ _
        (by decide : ∀ s ∈ ["source_collection", "source_document_id",
          "transaction_date", "amount"], s ≠ "type"))
      (keys_ne_of_map _ _
        (by decide : ∀ s ∈ ([] : List String), s ≠ "type"))]

/-- A concrete source whose `PostingDate` value is a list. -/
def srcListDate : RawRecord := [("PostingDate", PyValue.list [])]

/-- C10 counterexample: when the source's `PostingDate` value is a list,
the explicit `transaction_date` field retains that list verbatim — the
produced metadata contains a value that is not a string, integer, float or
boolean, and a list value that was not dropped. -/
theorem C10_counterexample :
    (build_document_metadata srcListDate "c" (some "s")).any
      (fun kv => !(isSimpleType kv.2)) = true :=
  rfl

/-- A concrete source with a scalar date and an opaque-object field. -/
def srcC10 : RawRecord :=
  [("PostingDate", PyValue.str "d"), ("Extra", PyValue.obj "oid")]

/-- Witness for C10: in the metadata of a concrete record, a merged
non-explicit field (an object stringified to `"oid"`) is non-null and
scalar, and the explicit date passes through. -/
theorem C10_witness :
    ("Extra", PyValue.str "oid").2 ≠ PyValue.none ∧
    isSimpleType ("Extra", PyValue.str "oid").2 = true ∧
    (build_document_metadata srcC10 "c" (some "s")).lookup
      "transaction_date" = some (PyValue.str "d") := by
  have h := C10_metadata_shape srcC10 "c" (some "s")
  have hmem : ("Extra", PyValue.str "oid") ∈
      build_document_metadata srcC10 "c" (some "s") := by
    show ("Extra", PyValue.str "oid") ∈
      ([("source_collection", PyValue.str "c"),
        ("source_document_id", PyValue.str "s"),
        ("transaction_date", PyValue.str "d"),
        ("PostingDate", PyValue.str "d"),
        ("Extra", PyValue.str "oid")] : Metadata)
    simp
  refine ⟨h.1 _ hmem, h.2.1 _ hmem (by decide), ?_⟩
  rw [h.2.2.2.1]
  rfl

/-! ### C2: what `process` does to the records it actually iterates -/

/-- On a cursor of `TransactionDto` records the loop skips every record:
the mapper's `source.pop` raises `AttributeError` before any uuid draw,
the handler's `transaction.id` succeeds on a DTO, and the loop continues
with buffer and entropy state untouched. -/
theorem processLoop_dto (collection : String) :
    ∀ (dtos : List TransactionDto) (c : RagCollection) (g : Nat)
      (sk : List ProcSkip),
      processLoop collection (dtos.map SourceArg.dto) c g sk =
        Except.ok (c, g, sk ++ List.replicate dtos.length
          (ProcSkip.mapFail PyError.attributeError)) := by
  intro dtos
  induction dtos with
  | nil =>
    intro c g sk
    simp [processLoop]
  | cons t rest ih =>
    intro c g sk
    simp only [List.map_cons, processLoop, build_langchain_document_dyn,
      attr_id]
    rw [ih]
    simp [List.replicate_succ, List.append_assoc]

/-- C2: through `CollectionProcessor.process` no record can ever map —
`process` feeds `TransactionDto` objects into `build_langchain_document`,
whose first statement `source.pop("_id", None)` raises `AttributeError`
on every one of them — so every record is skipped and the buffer passed
to the final flush is always empty.  A ten-record cursor therefore
flushes 0 units, never the claimed 9: partial success within a collection
is unrealizable through `process`. -/
theorem C2_process_maps_no_record (collection : String)
    (transactions : List TransactionDto) (g : Nat) (pid : Nat) (ts : Rat) :
    process collection transactions g pid ts =
      Except.ok
        { writes := [], warned := true,
          buffer := { pid := pid, documents := [], start_ts := ts },
          skips := List.replicate transactions.length
            (ProcSkip.mapFail PyError.attributeError),
          gen := g } := by
  simp [process, processLoop_dto, vectorize]

/-! ### C3: per-record exceptions are swallowed inside `process` -/

/-- C3 (amended): every exception raised by the per-record
mapping-and-append step — on the `TransactionDto` records `process`
iterates, always the `AttributeError` from `source.pop`, an exception
other than `MappingError` — is caught by the per-record handler, logged
with the record's id (which succeeds on a DTO), and skipped; the loop
continues and `process` returns normally, reaching its single flush, with
one logged skip per record.  Such exceptions never propagate to the
Scheduler; only code outside the per-record try block (fetching the
records, or the flush itself) can let an exception escape `process`. -/
theorem C3_per_record_exceptions_swallowed (collection : String)
    (transactions : List TransactionDto) (g : Nat) (pid : Nat) (ts : Rat) :
    ∃ R : ProcessResult,
      process collection transactions g pid ts = Except.ok R ∧
      R.skips.length = transactions.length := by
  refine ⟨{ writes := [], warned := true,
            buffer := { pid := pid, documents := [], start_ts := ts },
            skips := List.replicate transactions.length
              (ProcSkip.mapFail PyError.attributeError),
            gen := g }, ?_, by simp⟩
  simp [process, processLoop_dto, vectorize]

/-- A concrete well-formed transaction DTO. -/
def dto0 : TransactionDto :=
  { record_id := "a", amount := 1, posting_date := some "01/31/2023",
    details := "", tx_type := "DEBIT", description := "x",
    check_num := Option.none }

/-- C3 counterexample: mapping the single record of this cursor raises an
`AttributeError` — an exception other than `MappingError` — inside
`process`, yet `process` swallows it and returns normally with the record
logged as skipped: the exception does not propagate to the caller. -/
theorem C3_counterexample :
    (build_langchain_document_dyn (SourceArg.dto dto0) "c" 0).1 =
      Except.error PyError.attributeError ∧
    process "c" [dto0] 0 1 0 =
      Except.ok
        { writes := [], warned := true,
          buffer := { pid := 1, documents := [], start_ts := 0 },
          skips := [ProcSkip.mapFail PyError.attributeError],
          gen := 0 } :=
  ⟨rfl, rfl⟩

end Babylon
